import Mathlib

/-! Verification development for `auula/rosetta`.

Shallow embedding of the two source files

* `server/http_service.go`  (request authentication, the `/tables/{key}` controller and
  the JSON response helpers), and
* `encoding.go`             (the `Encoder` and its `ToWrite` method),

followed by theorems about them.

Modelling conventions.

* Go strings are Lean `String`s; byte slices are lists of naturals.
* A Go function returning `(value, error)` returns a pair whose second component is
  `Option` of the error (`none` is Go's `nil`).
* Side effects that the properties talk about are made explicit: the response writer
  is a record, and every call that leaves the function under study (the wrapped HTTP
  handler, the storage operations, the encryptor, file writes) is appended to a trace.
* Logging through `clog` has no influence on control flow or on the response and is
  left out.
* The parts of the Go library the sources rely on (`strings.Split`, `http.Header.Get`,
  the scanner and the stream decoder of `encoding/json`, `binary.LittleEndian.PutUint32`)
  are embedded as definitions of their own.
-/

namespace Rosetta

/-! ## Go library functions used by the sources -/

namespace strings

/-- Go `strings.Split` for a one-character separator, on the list of characters:
the pieces between consecutive occurrences of `sep` (never an empty list). -/
def splitChars (sep : Char) : List Char → List (List Char)
  | [] => [[]]
  | c :: cs =>
    if c = sep then [] :: splitChars sep cs
    else
      match splitChars sep cs with
      | [] => [[c]]
      | h :: t => (c :: h) :: t

/-- Go `strings.Split(s, sep)` for a one-character separator. -/
def Split (s : String) (sep : Char) : List String :=
  (splitChars sep s.data).map String.mk

end strings

namespace json

/-- The result codes of the scanner's state functions (`encoding/json`, `scanner.go`). -/
inductive Op where
  | scanContinue
  | scanBeginLiteral
  | scanBeginObject
  | scanObjectKey
  | scanObjectValue
  | scanEndObject
  | scanBeginArray
  | scanArrayValue
  | scanEndArray
  | scanSkipSpace
  | scanEnd
  | scanError
  deriving DecidableEq, Repr

/-- The entries of the scanner's `parseState` stack. -/
inductive ParseState where
  | parseObjectKey
  | parseObjectValue
  | parseArrayValue
  deriving DecidableEq, Repr

/-- The state functions a scanner's field `step` can hold. -/
inductive StepFn where
  | stateBeginValueOrEmpty
  | stateBeginValue
  | stateBeginStringOrEmpty
  | stateBeginString
  | stateEndValue
  | stateEndTop
  | stateInString
  | stateInStringEsc
  | stateInStringEscU
  | stateInStringEscU1
  | stateInStringEscU12
  | stateInStringEscU123
  | stateNeg
  | state1
  | state0
  | stateDot
  | stateDot0
  | stateE
  | stateESign
  | stateE0
  | stateT
  | stateTr
  | stateTru
  | stateF
  | stateFa
  | stateFal
  | stateFals
  | stateN
  | stateNu
  | stateNul
  | stateError
  deriving DecidableEq, Repr

/-- Go `json.scanner`: the current state function, whether the top-level value has
ended, the stack of enclosing composites (innermost first), and whether an error was
recorded (`err != nil`). The scanner works on bytes; every test it makes is against an
ASCII character, so it is run here on the characters of the text. -/
structure scanner where
  step : StepFn
  endTop : Bool
  parseState : List ParseState
  err : Bool
  deriving DecidableEq, Repr

/-- Go `maxNestingDepth`. -/
def maxNestingDepth : Nat := 10000

/-- Go `isSpace`. -/
def isSpace (c : Char) : Bool :=
  decide (c ≤ ' ') && (c == ' ' || c == '\t' || c == '\r' || c == '\n')

/-- The test for a hexadecimal digit made by the `stateInStringEscU` functions. -/
def isHex (c : Char) : Bool :=
  (decide ('0' ≤ c) && decide (c ≤ '9')) || (decide ('a' ≤ c) && decide (c ≤ 'f'))
    || (decide ('A' ≤ c) && decide (c ≤ 'F'))

/-- The test `'0' <= c && c <= '9'`. -/
def isDigit (c : Char) : Bool :=
  decide ('0' ≤ c) && decide (c ≤ '9')

/-- Go `scanner.reset`. -/
def scanner.reset : scanner :=
  { step := .stateBeginValue, endTop := false, parseState := [], err := false }

/-- Go `scanner.error`: records the error and moves to `stateError`. -/
def scanner.error (s : scanner) : scanner × Op :=
  ({ s with step := .stateError, err := true }, Op.scanError)

/-- Go `scanner.pushParseState`. -/
def scanner.pushParseState (s : scanner) (newParseState : ParseState) (successState : Op) :
    scanner × Op :=
  let s := { s with parseState := newParseState :: s.parseState }
  if s.parseState.length ≤ maxNestingDepth then (s, successState) else s.error

/-- Go `scanner.popParseState`. -/
def scanner.popParseState (s : scanner) : scanner :=
  let rest := s.parseState.tail
  if rest.length = 0 then { s with parseState := rest, step := .stateEndTop, endTop := true }
  else { s with parseState := rest, step := .stateEndValue }

/-- Go `stateEndTop`: a character that is not a space records an error, and the result
code is `scanEnd` either way. -/
def stateEndTop (s : scanner) (c : Char) : scanner × Op :=
  if !isSpace c then (s.error.1, Op.scanEnd) else (s, Op.scanEnd)

/-- Go `stateEndValue`. -/
def stateEndValue (s : scanner) (c : Char) : scanner × Op :=
  match s.parseState with
  | [] => stateEndTop { s with step := .stateEndTop, endTop := true } c
  | ps :: rest =>
    if isSpace c then ({ s with step := .stateEndValue }, Op.scanSkipSpace)
    else
      match ps with
      | .parseObjectKey =>
        if c = ':' then
          ({ s with parseState := .parseObjectValue :: rest, step := .stateBeginValue },
            Op.scanObjectKey)
        else s.error
      | .parseObjectValue =>
        if c = ',' then
          ({ s with parseState := .parseObjectKey :: rest, step := .stateBeginString },
            Op.scanObjectValue)
        else if c = '\x7d' then (s.popParseState, Op.scanEndObject)
        else s.error
      | .parseArrayValue =>
        if c = ',' then ({ s with step := .stateBeginValue }, Op.scanArrayValue)
        else if c = ']' then (s.popParseState, Op.scanEndArray)
        else s.error

/-- Go `stateBeginValue`. -/
def stateBeginValue (s : scanner) (c : Char) : scanner × Op :=
  if isSpace c then (s, Op.scanSkipSpace)
  else if c = '\x7b' then
    scanner.pushParseState { s with step := .stateBeginStringOrEmpty } .parseObjectKey
      Op.scanBeginObject
  else if c = '[' then
    scanner.pushParseState { s with step := .stateBeginValueOrEmpty } .parseArrayValue
      Op.scanBeginArray
  else if c = '"' then ({ s with step := .stateInString }, Op.scanBeginLiteral)
  else if c = '-' then ({ s with step := .stateNeg }, Op.scanBeginLiteral)
  else if c = '0' then ({ s with step := .state0 }, Op.scanBeginLiteral)
  else if c = 't' then ({ s with step := .stateT }, Op.scanBeginLiteral)
  else if c = 'f' then ({ s with step := .stateF }, Op.scanBeginLiteral)
  else if c = 'n' then ({ s with step := .stateN }, Op.scanBeginLiteral)
  else if decide ('1' ≤ c) && decide (c ≤ '9') then
    ({ s with step := .state1 }, Op.scanBeginLiteral)
  else s.error

/-- Go `stateBeginValueOrEmpty`. -/
def stateBeginValueOrEmpty (s : scanner) (c : Char) : scanner × Op :=
  if isSpace c then (s, Op.scanSkipSpace)
  else if c = ']' then stateEndValue s c
  else stateBeginValue s c

/-- Go `stateBeginString`. -/
def stateBeginString (s : scanner) (c : Char) : scanner × Op :=
  if isSpace c then (s, Op.scanSkipSpace)
  else if c = '"' then ({ s with step := .stateInString }, Op.scanBeginLiteral)
  else s.error

/-- Go `stateBeginStringOrEmpty`. -/
def stateBeginStringOrEmpty (s : scanner) (c : Char) : scanner × Op :=
  if isSpace c then (s, Op.scanSkipSpace)
  else if c = '\x7d' then
    stateEndValue { s with parseState := .parseObjectValue :: s.parseState.tail } c
  else stateBeginString s c

/-- Go `stateInString`. -/
def stateInString (s : scanner) (c : Char) : scanner × Op :=
  if c = '"' then ({ s with step := .stateEndValue }, Op.scanContinue)
  else if c = '\\' then ({ s with step := .stateInStringEsc }, Op.scanContinue)
  else if c.toNat < 32 then s.error
  else (s, Op.scanContinue)

/-- Go `stateInStringEsc`. -/
def stateInStringEsc (s : scanner) (c : Char) : scanner × Op :=
  if c = 'b' || c = 'f' || c = 'n' || c = 'r' || c = 't' || c = '\\' || c = '/' || c = '"' then
    ({ s with step := .stateInString }, Op.scanContinue)
  else if c = 'u' then ({ s with step := .stateInStringEscU }, Op.scanContinue)
  else s.error

/-- Go `stateInStringEscU`, `stateInStringEscU1`, `stateInStringEscU12` and
`stateInStringEscU123`, which differ in the state that follows a hexadecimal digit. -/
def stateInStringEscHex (next : StepFn) (s : scanner) (c : Char) : scanner × Op :=
  if isHex c then ({ s with step := next }, Op.scanContinue) else s.error

/-- Go `state0`. -/
def state0 (s : scanner) (c : Char) : scanner × Op :=
  if c = '.' then ({ s with step := .stateDot }, Op.scanContinue)
  else if c = 'e' || c = 'E' then ({ s with step := .stateE }, Op.scanContinue)
  else stateEndValue s c

/-- Go `state1`. -/
def state1 (s : scanner) (c : Char) : scanner × Op :=
  if isDigit c then ({ s with step := .state1 }, Op.scanContinue)
  else state0 s c

/-- Go `stateNeg`. -/
def stateNeg (s : scanner) (c : Char) : scanner × Op :=
  if c = '0' then ({ s with step := .state0 }, Op.scanContinue)
  else if decide ('1' ≤ c) && decide (c ≤ '9') then ({ s with step := .state1 }, Op.scanContinue)
  else s.error

/-- Go `stateDot`. -/
def stateDot (s : scanner) (c : Char) : scanner × Op :=
  if isDigit c then ({ s with step := .stateDot0 }, Op.scanContinue)
  else s.error

/-- Go `stateDot0`. -/
def stateDot0 (s : scanner) (c : Char) : scanner × Op :=
  if isDigit c then (s, Op.scanContinue)
  else if c = 'e' || c = 'E' then ({ s with step := .stateE }, Op.scanContinue)
  else stateEndValue s c

/-- Go `stateESign`. -/
def stateESign (s : scanner) (c : Char) : scanner × Op :=
  if isDigit c then ({ s with step := .stateE0 }, Op.scanContinue)
  else s.error

/-- Go `stateE`. -/
def stateE (s : scanner) (c : Char) : scanner × Op :=
  if c = '+' || c = '-' then ({ s with step := .stateESign }, Op.scanContinue)
  else stateESign s c

/-- Go `stateE0`. -/
def stateE0 (s : scanner) (c : Char) : scanner × Op :=
  if isDigit c then (s, Op.scanContinue)
  else stateEndValue s c

/-- The state functions inside the literals `true`, `false` and `null` (`stateT`,
`stateTr`, ..., `stateNul`): the one expected letter leads to the state `next`. -/
def stateLetter (expected : Char) (next : StepFn) (s : scanner) (c : Char) : scanner × Op :=
  if c = expected then ({ s with step := next }, Op.scanContinue) else s.error

/-- Go `s.step(s, c)`: the state function held in the field `step`, applied to the next
character. -/
def scanner.doStep (s : scanner) (c : Char) : scanner × Op :=
  match s.step with
  | .stateBeginValueOrEmpty => stateBeginValueOrEmpty s c
  | .stateBeginValue => stateBeginValue s c
  | .stateBeginStringOrEmpty => stateBeginStringOrEmpty s c
  | .stateBeginString => stateBeginString s c
  | .stateEndValue => stateEndValue s c
  | .stateEndTop => stateEndTop s c
  | .stateInString => stateInString s c
  | .stateInStringEsc => stateInStringEsc s c
  | .stateInStringEscU => stateInStringEscHex .stateInStringEscU1 s c
  | .stateInStringEscU1 => stateInStringEscHex .stateInStringEscU12 s c
  | .stateInStringEscU12 => stateInStringEscHex .stateInStringEscU123 s c
  | .stateInStringEscU123 => stateInStringEscHex .stateInString s c
  | .stateNeg => stateNeg s c
  | .state1 => state1 s c
  | .state0 => state0 s c
  | .stateDot => stateDot s c
  | .stateDot0 => stateDot0 s c
  | .stateE => stateE s c
  | .stateESign => stateESign s c
  | .stateE0 => stateE0 s c
  | .stateT => stateLetter 'r' .stateTr s c
  | .stateTr => stateLetter 'u' .stateTru s c
  | .stateTru => stateLetter 'e' .stateEndValue s c
  | .stateF => stateLetter 'a' .stateFa s c
  | .stateFa => stateLetter 'l' .stateFal s c
  | .stateFal => stateLetter 's' .stateFals s c
  | .stateFals => stateLetter 'e' .stateEndValue s c
  | .stateN => stateLetter 'u' .stateNu s c
  | .stateNu => stateLetter 'l' .stateNul s c
  | .stateNul => stateLetter 'l' .stateEndValue s c
  | .stateError => (s, Op.scanError)

/-- Go `scanner.eof`. -/
def scanner.eof (s : scanner) : scanner × Op :=
  if s.err then (s, Op.scanError)
  else if s.endTop then (s, Op.scanEnd)
  else
    let s1 := (s.doStep ' ').1
    if s1.endTop then (s1, Op.scanEnd)
    else ({ s1 with err := true }, Op.scanError)

/-- The loop of Go `checkValid`: true when no error is returned. -/
def checkValidLoop (s : scanner) : List Char → Bool
  | [] => s.eof.2 ≠ Op.scanError
  | c :: rest =>
    if (s.doStep c).2 = Op.scanError then false
    else checkValidLoop (s.doStep c).1 rest

/-- Go `json.Valid`: the whole text is one JSON value, with nothing but white space
around it. -/
def Valid (data : String) : Bool :=
  checkValidLoop scanner.reset data.data

/-- The loop of Go `Decoder.readValue` over a buffer that holds the whole input
(refilling the buffer from the reader changes nothing in what is scanned): the number
of characters up to the end of the first JSON value, or `none` for an error. `scanp`
counts the characters scanned so far. What follows the first value is not looked at. -/
def readValueLoop (s : scanner) (scanp : Nat) : List Char → Option Nat
  | [] =>
    -- the read has returned `io.EOF`
    if (s.doStep ' ').2 = Op.scanEnd then some scanp else none
  | c :: rest =>
    if (s.doStep c).2 = Op.scanEnd then some scanp
    else if (s.doStep c).2 = Op.scanEndObject ∨ (s.doStep c).2 = Op.scanEndArray then
      if (stateEndValue (s.doStep c).1 ' ').2 = Op.scanEnd then some (scanp + 1)
      else readValueLoop (stateEndValue (s.doStep c).1 ' ').1 (scanp + 1) rest
    else if (s.doStep c).2 = Op.scanError then none
    else readValueLoop (s.doStep c).1 (scanp + 1) rest

/-- Go `Decoder.readValue` on a fresh decoder. -/
def readValue (buf : List Char) : Option Nat :=
  readValueLoop scanner.reset 0 buf

/-- Go `json.NewDecoder(body).Decode(&v)` on a fresh decoder: `readValue` finds the
first JSON value of the input, and that value is unmarshalled into `v`. The
unmarshalling into the target type is the function `unmarshal`, giving the value of
`v` afterwards and the error; `zero` is `v` before the call and `syntaxErr` the error
returned when `readValue` fails. -/
def Decode {Tables E : Type} (unmarshal : String → Tables × Option E) (zero : Tables)
    (syntaxErr : E) (body : String) : Tables × Option E :=
  match readValue body.data with
  | none => (zero, some syntaxErr)
  | some n => unmarshal (String.mk (body.data.take n))

end json

namespace binary

/-- Go `binary.LittleEndian.PutUint32(b, v)`: the bounds check `_ = b[3]` panics
(`none`) when `b` has fewer than four bytes; otherwise the four bytes of `v`, least
significant first, take the place of the first four bytes of `b`. -/
def PutUint32 (b : List Nat) (v : Nat) : Option (List Nat) :=
  if b.length < 4 then none
  else some ([v % 256, v / 256 % 256, v / 65536 % 256, v / 16777216 % 256] ++ b.drop 4)

end binary

namespace http

/-- Go `http.MethodGet`. -/
def MethodGet : String := "GET"
/-- Go `http.MethodPut`. -/
def MethodPut : String := "PUT"
/-- Go `http.MethodPost`. -/
def MethodPost : String := "POST"
/-- Go `http.MethodDelete`. -/
def MethodDelete : String := "DELETE"

/-- Go `http.StatusOK`. -/
def StatusOK : Nat := 200
/-- Go `http.StatusBadRequest`. -/
def StatusBadRequest : Nat := 400
/-- Go `http.StatusUnauthorized`. -/
def StatusUnauthorized : Nat := 401
/-- Go `http.StatusMethodNotAllowed`. -/
def StatusMethodNotAllowed : Nat := 405

/-- Go `http.Header`: a map from (canonical) header name to its list of values; a
name that is absent from the map has the empty list. -/
abbrev Header := String → List String

/-- Go `Header.Get`: the first value stored under the name, or the empty string. -/
def Header.Get (h : Header) (key : String) : String :=
  (h key).headD ""

/-- The fields of Go `*http.Request` read by the handlers, together with the route
variables that `mux.Vars(r)` returns for it. -/
structure Request where
  Method : String
  Header : Header
  RemoteAddr : String
  Vars : String → Option String
  Body : String

end http

open http

/-! ## `server/http_service.go` -/

/-- The constant `version`. -/
def version : String := "wiredb/0.1.1"

/-- The variable `allowMethod`. -/
def allowMethod : List String := [MethodGet, MethodPut, MethodPost, MethodDelete]

/-- The struct `ResponseBody`; `Result` is `interface{}` in the source, and the only
values the handlers put there are `nil` and a `types.Tables`. -/
structure ResponseBody (Tables : Type) where
  Code : Nat
  Result : Option Tables
  Message : String
  deriving DecidableEq, Repr

/-- State of a Go `http.ResponseWriter`: the header map (as an association list, most
recently set name first), the status line once it has been written, and the JSON
documents encoded into the body, in order. -/
structure ResponseWriter (Tables : Type) where
  header : List (String × String)
  status : Option Nat
  body : List (ResponseBody Tables)
  deriving DecidableEq, Repr

namespace ResponseWriter

variable {Tables : Type}

/-- A response writer on which nothing has been written yet. -/
def fresh : ResponseWriter Tables := { header := [], status := none, body := [] }

/-- Go `w.Header().Set(key, value)`. -/
def Set (w : ResponseWriter Tables) (key value : String) : ResponseWriter Tables :=
  { w with header := (key, value) :: w.header.filter (fun kv => kv.1 ≠ key) }

/-- Go `w.WriteHeader(code)`: the first call fixes the status line, later calls are
ignored by `net/http`. -/
def WriteHeader (w : ResponseWriter Tables) (code : Nat) : ResponseWriter Tables :=
  match w.status with
  | none => { w with status := some code }
  | some _ => w

/-- Go `json.NewEncoder(w).Encode(resp)`: one JSON document is written to the body;
a write before any `WriteHeader` sends the status line 200 first. -/
def Encode (w : ResponseWriter Tables) (resp : ResponseBody Tables) : ResponseWriter Tables :=
  let w1 := w.WriteHeader StatusOK
  { w1 with body := w1.body ++ [resp] }

end ResponseWriter

/-- A call that leaves the HTTP layer: the wrapped handler of the middleware, or one of
the operations of the storage core. -/
inductive Event (Tables Segment : Type) where
  | ServeHTTP
  | FetchSegment (key : String)
  | NewSegment (key : String) (tables : Tables) (offset : Nat)
  | PutSegment (key : String) (seg : Segment)
  | DeleteSegment (key : String)
  deriving DecidableEq, Repr

/-- What a handler acts on: the response writer and the trace of outgoing calls. -/
structure Conn (Tables Segment : Type) where
  w : ResponseWriter Tables
  trace : List (Event Tables Segment)
  deriving DecidableEq, Repr

/-- A Go `http.Handler` (its `ServeHTTP` method). -/
abbrev Handler (Tables Segment : Type) :=
  Conn Tables Segment → Request → Conn Tables Segment

/-- The storage core and the JSON decoder, which the controller calls and whose code is
outside `http_service.go`: each is taken as a function giving the Go return values.
`Decode body` stands for `json.NewDecoder(r.Body).Decode(&tables)` and returns the
decoded tables and the error. -/
structure Storage (Tables Segment E : Type) where
  FetchSegment : String → Segment × Option E
  ToTables : Segment → Tables × Option E
  NewSegment : String → Tables → Nat → Segment × Option E
  PutSegment : String → Segment → Option E
  DeleteSegment : String → Option E
  Decode : String → Tables × Option E

section Server

variable {Tables Segment E : Type}

/-- The function `okResponse`. -/
def okResponse (w : ResponseWriter Tables) (code : Nat) (result : Option Tables)
    (message : String) : ResponseWriter Tables :=
  let w := w.Set "Content-Type" "application/json"
  let w := w.Set "Server" version
  let w := w.WriteHeader code
  let resp : ResponseBody Tables := { Code := code, Result := result, Message := message }
  w.Encode resp

/-- The function `unauthorizedResponse`. -/
def unauthorizedResponse (w : ResponseWriter Tables) (message : String) :
    ResponseWriter Tables :=
  let w := w.Set "Content-Type" "application/json"
  let w := w.Set "Server" version
  let w := w.WriteHeader StatusUnauthorized
  let resp : ResponseBody Tables :=
    { Code := StatusUnauthorized, Result := none, Message := message }
  w.Encode resp

/-- The function `methodNotAllowedResponse`. -/
def methodNotAllowedResponse (w : ResponseWriter Tables) (message : String) :
    ResponseWriter Tables :=
  let w := w.Set "Content-Type" "application/json"
  let w := w.Set "Server" version
  let w := w.WriteHeader StatusUnauthorized
  let resp : ResponseBody Tables :=
    { Code := StatusMethodNotAllowed, Result := none, Message := message }
  w.Encode resp

/-- The package variables `authPassword` and `allowIpList`. -/
structure Config where
  authPassword : String
  allowIpList : List String

/-- The loop of `authMiddleware` over `allowIpList`: true as soon as one entry equals
the first piece of `strings.Split(ip, ":")`. -/
def isAllowedIP (ip : String) : List String → Bool
  | [] => false
  | allowedIP :: rest =>
    if (strings.Split ip ':').headD "" = allowedIP then true
    else isAllowedIP ip rest

/-- The function `authMiddleware`: the handler it returns for the handler `next`. -/
def authMiddleware (cfg : Config) (next : Handler Tables Segment) : Handler Tables Segment :=
  fun c r =>
    let token := r.Header.Get "Auth"
    let ip := r.Header.Get "X-Forwarded-For"
    let ip := if ip = "" then r.RemoteAddr else ip
    let allowed := if cfg.allowIpList.length > 0 then isAllowedIP ip cfg.allowIpList else false
    if !allowed then
      { c with w := unauthorizedResponse c.w ("Your IP " ++ ip ++ " is not allowed!") }
    else if token ≠ cfg.authPassword then
      { c with w := unauthorizedResponse c.w "Access not authorised!" }
    else
      next { c with trace := c.trace ++ [Event.ServeHTTP] } r

/-- The function `tablesController`, over the storage core `storage`. -/
def tablesController (storage : Storage Tables Segment E) : Handler Tables Segment :=
  fun c r =>
    match r.Vars "key" with
    | none => { c with w := okResponse c.w StatusBadRequest none "缺少必要的参数 key" }
    | some keyParam =>
      if keyParam = "" then
        { c with w := okResponse c.w StatusBadRequest none "缺少必要的参数 key" }
      else if r.Method = MethodGet then
        let (seg, _) := storage.FetchSegment keyParam
        let c := { c with trace := c.trace ++ [Event.FetchSegment keyParam] }
        let (table, _) := storage.ToTables seg
        { c with w := okResponse c.w StatusOK (some table) "request processed successfully!" }
      else if r.Method = MethodPut then
        match storage.Decode r.Body with
        | (_, some _) =>
          { c with w := okResponse c.w StatusBadRequest none "无效的请求体，JSON 格式错误" }
        | (tables, none) =>
          let c := { c with trace := c.trace ++ [Event.NewSegment keyParam tables 0] }
          match storage.NewSegment keyParam tables 0 with
          | (_, some _) =>
            { c with w := okResponse c.w StatusBadRequest none "无效的请求体，JSON 格式错误" }
          | (seg, none) =>
            let c := { c with trace := c.trace ++ [Event.PutSegment keyParam seg] }
            match storage.PutSegment keyParam seg with
            | some _ =>
              { c with w := okResponse c.w StatusBadRequest none "无效的请求体，JSON 格式错误" }
            | none =>
              { c with w := okResponse c.w StatusOK none "request processed successfully!" }
      else if r.Method = MethodPost then
        { c with w := okResponse c.w StatusOK none "request processed successfully!" }
      else if r.Method = MethodDelete then
        let _err := storage.DeleteSegment keyParam
        let c := { c with trace := c.trace ++ [Event.DeleteSegment keyParam] }
        { c with w := okResponse c.w StatusOK none "request processed successfully!" }
      else
        { c with w := methodNotAllowedResponse c.w "HTTP Protocol Method Not Allowed!" }

end Server

/-! ### Specification-side notions for the HTTP layer -/

/-- The client address as the specification words it: the text before the first colon
of the `X-Forwarded-For` header, or of `RemoteAddr` when that header is empty. -/
def clientAddress (r : Request) : String :=
  let src := if r.Header.Get "X-Forwarded-For" = "" then r.RemoteAddr
             else r.Header.Get "X-Forwarded-For"
  String.mk (src.data.takeWhile (fun ch => ch ≠ ':'))

/-- A body that is valid JSON for the tables, as the specification words the
well-formed PUT request: the whole body is one JSON value (`json.Valid`) and that value
unmarshals into the tables without error. -/
def validJSONFor {Tables E : Type} (unmarshal : String → Tables × Option E)
    (body : String) : Bool :=
  json.Valid body && (unmarshal body).2.isNone

/-! ## `encoding.go` -/

/-- A Go byte slice. -/
abbrev Bytes := List Nat

/-- Go `error` values met in `encoding.go`: the package error
`ErrSourceDataEncodeFail`, and any other error an encryptor may return. -/
inductive Err where
  | ErrSourceDataEncodeFail
  | Other (msg : String)
  deriving DecidableEq, Repr

/-- Modelled from the spec: the struct `Entity` is declared outside `encoding.go`; the
specification gives it a key and a value, both byte strings, which are the two fields
`ToWrite` mentions (`entity.Key`, `entity.Value`). -/
structure Entity where
  Key : Bytes
  Value : Bytes
  deriving DecidableEq, Repr

/-- Modelled from the spec: the struct `SourceData` is declared outside `encoding.go`;
`ToWrite` builds it from the two fields `Secret` and `Data`. -/
structure SourceData where
  Secret : Bytes
  Data : Bytes
  deriving DecidableEq, Repr

/-- Modelled from the spec: the interface `Encryptor` is declared outside `encoding.go`;
`ToWrite` uses its method `Encode(sd) error`, which works on the source data in place.
The function gives the source data after the call and the returned error. -/
abbrev Encryptor := SourceData → SourceData × Option Err

/-- The struct `Encoder`: the embedded `Encryptor` (an interface value, `none` for Go
`nil`) and the flag `enable`. -/
structure Encoder where
  Encryptor : Option Encryptor
  enable : Bool

/-- The function `AESEncoder`; `aes` stands for the value `new(AESEncryptor)`, whose
type is declared outside `encoding.go`. -/
def AESEncoder (aes : Encryptor) : Encoder :=
  { enable := true, Encryptor := some aes }

/-- The function `DefaultEncoder`. -/
def DefaultEncoder : Encoder :=
  { enable := false, Encryptor := none }

/-- How a run of `ToWrite` ends: it returns its `error` result, or it panics. -/
inductive Outcome where
  | returned (err : Option Err)
  | panicked
  deriving DecidableEq, Repr

/-- What a run of `ToWrite` leaves behind besides its outcome: the entity, the source
data with which the encryptor was entered (in call order), the byte slices handed on
for writing to the active file (in call order), and the content of the buffer `buf`. -/
structure WriteTrace where
  entity : Entity
  encodeCalls : List SourceData
  written : List Bytes
  buf : Bytes
  deriving DecidableEq, Repr

/-- The method `Encoder.ToWrite`, run with the package variable `secret` holding
`secret`. Both calls that would hand bytes on for writing (`currentFile.WriteAt`,
`bufToWrite`) are commented out in the source, so nothing is ever added to `written`.

After a successful `Encode` the source has the statement
`binary.LittleEndian.PutUint32(buf[:])`. The buffer it names has one declaration in
`encoding.go`, the commented-out `var buf []byte` (a nil slice, of length 0), and the
value to store is left out. The statement is embedded with both supplied from
outside: `buf` is the content of the buffer when `ToWrite` is entered and `v` the
value, and `PutUint32` panics when the buffer has fewer than four bytes. Only when it
does not panic is the `return nil` after it reached. -/
def Encoder.ToWrite (secret buf : Bytes) (v : Nat) (e : Encoder) (entity : Entity) :
    Outcome × WriteTrace :=
  match e.enable, e.Encryptor with
  | true, some enc =>
    let sd : SourceData := { Secret := secret, Data := entity.Value }
    let t : WriteTrace :=
      { entity := entity, encodeCalls := [sd], written := [], buf := buf }
    match enc sd with
    | (_, some _) => (Outcome.returned (some Err.ErrSourceDataEncodeFail), t)
    | (_, none) =>
      match binary.PutUint32 buf v with
      | none => (Outcome.panicked, t)
      | some filled => (Outcome.returned none, { t with buf := filled })
  | _, _ =>
    (Outcome.returned none,
      { entity := entity, encodeCalls := [], written := [], buf := buf })

/-- The function `bufToWrite`, whose body is empty. -/
def bufToWrite (_entity : Bytes) : Unit := ()

/-! ### Specification-side notions for the codec -/

/-- The payload layout the specification describes: key-length, key bytes,
value-length, value bytes. Each length field is one list element here; the
specification fixes that the fields have a fixed width, not which one. -/
def specPayload (entity : Entity) : Bytes :=
  entity.Key.length :: entity.Key ++ entity.Value.length :: entity.Value

/-! ## Concrete inputs used to exercise the theorems -/

/-- A request: method, value of the route variable `key`, body, and the three inputs of
the middleware (`Auth` header, `X-Forwarded-For` header, remote address). An empty
string for a header means the header is absent. -/
def mkRequest (method : String) (key : Option String) (body : String)
    (auth forwarded remote : String) : Request :=
  { Method := method
    Header := fun name =>
      if name = "Auth" then (if auth = "" then [] else [auth])
      else if name = "X-Forwarded-For" then (if forwarded = "" then [] else [forwarded])
      else []
    RemoteAddr := remote
    Vars := fun name => if name = "key" then key else none
    Body := body }

/-- A storage core over naturals in which every operation succeeds; a body decodes
unless it is the text `oops`. -/
def goodStorage : Storage Nat Nat String :=
  { FetchSegment := fun _ => (7, none)
    ToTables := fun seg => (seg, none)
    NewSegment := fun _ tables _ => (tables, none)
    PutSegment := fun _ _ => none
    DeleteSegment := fun _ => none
    Decode := fun body => if body = "oops" then (0, some "bad json") else (body.length, none) }

/-- A storage core over naturals in which fetching, putting and deleting fail. -/
def failingStorage : Storage Nat Nat String :=
  { FetchSegment := fun _ => (0, some "not found")
    ToTables := fun seg => (seg, none)
    NewSegment := fun _ tables _ => (tables, none)
    PutSegment := fun _ _ => some "write failure"
    DeleteSegment := fun _ => some "not found"
    Decode := fun body => (body.length, none) }

/-- The unmarshalling of one JSON value into the tables of `jsonStorage`:
`types.Tables` is declared outside `http_service.go`; as for a Go struct or map, a
JSON object is accepted, and any other value is an error. The tables are represented
by the length of the text. -/
def objectUnmarshal (text : String) : Nat × Option String :=
  if (text.data.dropWhile json.isSpace).head? = some '\x7b' then (text.length, none)
  else (0, some "json: cannot unmarshal value into Go value of type types.Tables")

/-- A storage core over naturals in which every operation succeeds and the body is
decoded as `json.NewDecoder(r.Body).Decode(&tables)` does. -/
def jsonStorage : Storage Nat Nat String :=
  { FetchSegment := fun _ => (7, none)
    ToTables := fun seg => (seg, none)
    NewSegment := fun _ tables _ => (tables, none)
    PutSegment := fun _ _ => none
    DeleteSegment := fun _ => none
    Decode := json.Decode objectUnmarshal 0 "invalid character after top-level value" }

/-- A connection on which nothing has happened yet. -/
def freshConn : Conn Nat Nat := { w := ResponseWriter.fresh, trace := [] }

/-- A configuration admitting one address with one password. -/
def sampleConfig : Config := { authPassword := "pw", allowIpList := ["10.0.0.1"] }

/-- An encryptor that always succeeds (it reverses the data). -/
def reverseEncryptor : Encryptor :=
  fun sd => ({ sd with Data := sd.Data.reverse }, none)

/-- An encryptor that always fails. -/
def brokenEncryptor : Encryptor :=
  fun sd => (sd, some (Err.Other "no entropy"))

/-! ## Lemmas on the library functions -/

theorem splitChars_headD (sep : Char) (l : List Char) :
    (strings.splitChars sep l).headD [] = l.takeWhile (fun ch => ch ≠ sep) := by
  induction l with
  | nil => rfl
  | cons c cs ih =>
    by_cases h : c = sep
    · simp [strings.splitChars, h]
    · cases hs : strings.splitChars sep cs with
      | nil =>
        rw [hs] at ih
        simp [strings.splitChars, h, hs]
        simpa using ih
      | cons a t =>
        rw [hs] at ih
        simp [strings.splitChars, h, hs]
        simpa using ih

theorem splitChars_ne_nil (sep : Char) (l : List Char) : strings.splitChars sep l ≠ [] := by
  cases l with
  | nil => simp [strings.splitChars]
  | cons c cs =>
    by_cases h : c = sep
    · simp [strings.splitChars, h]
    · cases hs : strings.splitChars sep cs <;> simp [strings.splitChars, h, hs]

theorem Split_headD (s : String) (sep : Char) :
    (strings.Split s sep).headD "" = String.mk (s.data.takeWhile (fun ch => ch ≠ sep)) := by
  have h := splitChars_headD sep s.data
  cases hs : strings.splitChars sep s.data with
  | nil => exact absurd hs (splitChars_ne_nil sep s.data)
  | cons a t =>
    rw [hs] at h
    have ha : a = s.data.takeWhile (fun ch => ch ≠ sep) := by simpa using h
    simp only [strings.Split, hs, List.map_cons, List.headD_cons]
    rw [ha]

theorem isAllowedIP_iff (ip : String) (l : List String) :
    isAllowedIP ip l = true ↔ (strings.Split ip ':').headD "" ∈ l := by
  induction l with
  | nil => simp [isAllowedIP]
  | cons a rest ih =>
    unfold isAllowedIP
    by_cases h : (strings.Split ip ':').headD "" = a
    · rw [if_pos h]
      constructor
      · intro _; rw [h]; exact List.mem_cons_self a rest
      · intro _; rfl
    · rw [if_neg h, ih]
      constructor
      · intro hm; exact List.mem_cons_of_mem a hm
      · intro hm
        cases List.mem_cons.mp hm with
        | inl e => exact absurd e h
        | inr hm => exact hm

/-! ## The authentication middleware -/

theorem status_unauthorizedResponse {Tables : Type} (w : ResponseWriter Tables) (msg : String)
    (h : w.status = none) : (unauthorizedResponse w msg).status = some 401 := by
  simp [unauthorizedResponse, ResponseWriter.Encode, ResponseWriter.WriteHeader,
    ResponseWriter.Set, h, StatusUnauthorized]

theorem allowed_iff_clientAddress (cfg : Config) (r : Request) :
    (if cfg.allowIpList.length > 0 then
        isAllowedIP (if r.Header.Get "X-Forwarded-For" = "" then r.RemoteAddr
          else r.Header.Get "X-Forwarded-For") cfg.allowIpList else false) = true
      ↔ clientAddress r ∈ cfg.allowIpList := by
  -- the address the code compares is the address of the specification
  have haddr : (strings.Split
      (if r.Header.Get "X-Forwarded-For" = "" then r.RemoteAddr
        else r.Header.Get "X-Forwarded-For") ':').headD "" = clientAddress r := by
    rw [Split_headD]; rfl
  by_cases hl : cfg.allowIpList.length > 0
  · rw [if_pos hl, isAllowedIP_iff, haddr]
  · rw [if_neg hl]
    have : cfg.allowIpList = [] := by
      cases hc : cfg.allowIpList with
      | nil => rfl
      | cons a t => rw [hc] at hl; simp at hl
    rw [this]; simp

theorem authMiddleware_of_pass {Tables Segment : Type} (cfg : Config)
    (next : Handler Tables Segment) (c : Conn Tables Segment) (r : Request)
    (hip : clientAddress r ∈ cfg.allowIpList) (htok : r.Header.Get "Auth" = cfg.authPassword) :
    authMiddleware cfg next c r = next { c with trace := c.trace ++ [Event.ServeHTTP] } r := by
  have hb := (allowed_iff_clientAddress cfg r).mpr hip
  simp only [authMiddleware]
  rw [hb]
  simp [htok]

theorem authMiddleware_of_deny {Tables Segment : Type} (cfg : Config)
    (next : Handler Tables Segment) (c : Conn Tables Segment) (r : Request)
    (hno : ¬ (clientAddress r ∈ cfg.allowIpList ∧ r.Header.Get "Auth" = cfg.authPassword)) :
    ∃ msg, authMiddleware cfg next c r = { c with w := unauthorizedResponse c.w msg } := by
  by_cases hip : clientAddress r ∈ cfg.allowIpList
  · have htok : ¬ r.Header.Get "Auth" = cfg.authPassword := fun e => hno ⟨hip, e⟩
    have hb := (allowed_iff_clientAddress cfg r).mpr hip
    refine ⟨"Access not authorised!", ?_⟩
    simp only [authMiddleware]
    rw [hb]
    simp [htok]
  · have hb : ¬ ((if cfg.allowIpList.length > 0 then
        isAllowedIP (if r.Header.Get "X-Forwarded-For" = "" then r.RemoteAddr
          else r.Header.Get "X-Forwarded-For") cfg.allowIpList else false) = true) :=
      fun e => hip ((allowed_iff_clientAddress cfg r).mp e)
    have hb2 := Bool.eq_false_iff.mpr hb
    refine ⟨"Your IP " ++ (if r.Header.Get "X-Forwarded-For" = "" then r.RemoteAddr
      else r.Header.Get "X-Forwarded-For") ++ " is not allowed!", ?_⟩
    simp only [authMiddleware]
    rw [hb2]
    simp

/-- C1: on a connection where nothing was written yet, `authMiddleware` hands the
request to the wrapped handler if and only if the client address (text before the
first colon of `X-Forwarded-For`, or of `RemoteAddr` when that header is empty) is an
entry of `allowIpList` and the `Auth` header equals `authPassword`. When both hold the
result is that of the wrapped handler, entered once; in every other case the result is
an `unauthorizedResponse` with status 401, the trace is untouched (the wrapped handler
is not entered), and the result is the same for every wrapped handler. In particular
an empty `allowIpList` lets no request through. -/
theorem authMiddleware_gate {Tables Segment : Type} (cfg : Config)
    (next : Handler Tables Segment) (c : Conn Tables Segment) (r : Request)
    (hfresh : c.w.status = none) :
    ((∀ nx : Handler Tables Segment,
        authMiddleware cfg nx c r = nx { c with trace := c.trace ++ [Event.ServeHTTP] } r)
      ↔ (clientAddress r ∈ cfg.allowIpList ∧ r.Header.Get "Auth" = cfg.authPassword)) ∧
    ((clientAddress r ∈ cfg.allowIpList ∧ r.Header.Get "Auth" = cfg.authPassword) →
        authMiddleware cfg next c r
          = next { c with trace := c.trace ++ [Event.ServeHTTP] } r) ∧
    (¬ (clientAddress r ∈ cfg.allowIpList ∧ r.Header.Get "Auth" = cfg.authPassword) →
        (authMiddleware cfg next c r).trace = c.trace ∧
        (authMiddleware cfg next c r).w.status = some 401 ∧
        (∃ msg, ∀ nx : Handler Tables Segment,
          authMiddleware cfg nx c r = { c with w := unauthorizedResponse c.w msg })) ∧
    (cfg.allowIpList = [] →
        (authMiddleware cfg next c r).trace = c.trace ∧
        (authMiddleware cfg next c r).w.status = some 401) := by
  have hdeny : ¬ (clientAddress r ∈ cfg.allowIpList ∧ r.Header.Get "Auth" = cfg.authPassword) →
      (authMiddleware cfg next c r).trace = c.trace ∧
      (authMiddleware cfg next c r).w.status = some 401 ∧
      (∃ msg, ∀ nx : Handler Tables Segment,
        authMiddleware cfg nx c r = { c with w := unauthorizedResponse c.w msg }) := by
    intro hno
    obtain ⟨msg, e⟩ := authMiddleware_of_deny cfg next c r hno
    refine ⟨by rw [e], by rw [e]; exact status_unauthorizedResponse _ _ hfresh, msg, ?_⟩
    intro nx
    -- the refusal does not mention the wrapped handler
    obtain ⟨msg2, e2⟩ := authMiddleware_of_deny cfg nx c r hno
    have e3 : authMiddleware cfg nx c r = authMiddleware cfg next c r := by
      by_cases hip : clientAddress r ∈ cfg.allowIpList
      · have htok : ¬ r.Header.Get "Auth" = cfg.authPassword := fun e => hno ⟨hip, e⟩
        have hb := (allowed_iff_clientAddress cfg r).mpr hip
        simp only [authMiddleware]
        rw [hb]
        simp [htok]
      · have hb : ¬ ((if cfg.allowIpList.length > 0 then
            isAllowedIP (if r.Header.Get "X-Forwarded-For" = "" then r.RemoteAddr
              else r.Header.Get "X-Forwarded-For") cfg.allowIpList else false) = true) :=
          fun e => hip ((allowed_iff_clientAddress cfg r).mp e)
        have hb2 := Bool.eq_false_iff.mpr hb
        simp only [authMiddleware]
        rw [hb2]
        simp
    rw [e3, e]
  refine ⟨⟨?_, ?_⟩, ?_, hdeny, ?_⟩
  · intro hall
    by_contra hno
    -- probe with the handler that does nothing: it would have to show the call
    have h1 := hall (fun c0 _ => c0)
    obtain ⟨msg, e⟩ := authMiddleware_of_deny cfg (fun c0 _ => c0) c r hno
    rw [e] at h1
    have h2 := congrArg Conn.trace h1
    have h3 := congrArg List.length h2
    simp at h3
  · rintro ⟨hip, htok⟩ nx
    exact authMiddleware_of_pass cfg nx c r hip htok
  · rintro ⟨hip, htok⟩
    exact authMiddleware_of_pass cfg next c r hip htok
  · intro hempty
    have hno : ¬ (clientAddress r ∈ cfg.allowIpList ∧
        r.Header.Get "Auth" = cfg.authPassword) := by
      rw [hempty]; simp
    exact ⟨(hdeny hno).1, (hdeny hno).2.1⟩

/-- C1, exercised: a request from `10.0.0.9` is refused although its password is right,
and the controller behind the middleware is not entered. -/
theorem authMiddleware_gate_witness :
    freshConn.w.status = none ∧
    (authMiddleware sampleConfig (tablesController goodStorage) freshConn
        (mkRequest "GET" (some "k") "" "pw" "" "10.0.0.9:4000")).trace = freshConn.trace ∧
    (authMiddleware sampleConfig (tablesController goodStorage) freshConn
        (mkRequest "GET" (some "k") "" "pw" "" "10.0.0.9:4000")).w.status = some 401 :=
  ⟨rfl,
   ((authMiddleware_gate sampleConfig (tablesController goodStorage) freshConn
      (mkRequest "GET" (some "k") "" "pw" "" "10.0.0.9:4000") rfl).2.2.1 (by decide)).1,
   ((authMiddleware_gate sampleConfig (tablesController goodStorage) freshConn
      (mkRequest "GET" (some "k") "" "pw" "" "10.0.0.9:4000") rfl).2.2.1 (by decide)).2.1⟩

/-! ## The response helpers -/

theorem status_okResponse {Tables : Type} (w : ResponseWriter Tables) (code : Nat)
    (result : Option Tables) (msg : String) (h : w.status = none) :
    (okResponse w code result msg).status = some code := by
  simp [okResponse, ResponseWriter.Encode, ResponseWriter.WriteHeader, ResponseWriter.Set, h]

theorem body_okResponse {Tables : Type} (w : ResponseWriter Tables) (code : Nat)
    (result : Option Tables) (msg : String) :
    (okResponse w code result msg).body
      = w.body ++ [{ Code := code, Result := result, Message := msg }] := by
  cases hw : w.status <;>
    simp [okResponse, ResponseWriter.Encode, ResponseWriter.WriteHeader, ResponseWriter.Set, hw]

theorem body_unauthorizedResponse {Tables : Type} (w : ResponseWriter Tables) (msg : String) :
    (unauthorizedResponse w msg).body
      = w.body ++ [{ Code := 401, Result := none, Message := msg }] := by
  cases hw : w.status <;>
    simp [unauthorizedResponse, ResponseWriter.Encode, ResponseWriter.WriteHeader,
      ResponseWriter.Set, hw, StatusUnauthorized]

/-- C10: `methodNotAllowedResponse` on a fresh response writer puts 401 on the status
line while the JSON body it encodes carries the code 405, so for this helper the
status line and the body code differ. -/
theorem methodNotAllowedResponse_status_mismatch :
    (methodNotAllowedResponse (ResponseWriter.fresh : ResponseWriter Nat)
        "HTTP Protocol Method Not Allowed!").status = some 401 ∧
    (methodNotAllowedResponse (ResponseWriter.fresh : ResponseWriter Nat)
        "HTTP Protocol Method Not Allowed!").body
      = [{ Code := 405, Result := none, Message := "HTTP Protocol Method Not Allowed!" }] := by
  decide

/-! ## The tables controller -/

/-- C4, amended: on a connection where nothing was written yet, a request whose `key`
route variable is missing or empty, or a PUT request for which
`json.NewDecoder(r.Body).Decode(&tables)` returns an error, is answered with status 400
and leaves the trace untouched: none of `FetchSegment`, `NewSegment`, `PutSegment`,
`DeleteSegment` is called. -/
theorem tablesController_malformed {Tables Segment E : Type}
    (storage : Storage Tables Segment E) (c : Conn Tables Segment) (r : Request)
    (hfresh : c.w.status = none)
    (hbad : r.Vars "key" = none ∨ r.Vars "key" = some "" ∨
      (r.Method = MethodPut ∧ (storage.Decode r.Body).2 ≠ none)) :
    (tablesController storage c r).w.status = some 400 ∧
    (tablesController storage c r).trace = c.trace := by
  have h400 : ∀ msg, (okResponse c.w StatusBadRequest none msg).status = some 400 :=
    fun msg => status_okResponse c.w 400 none msg hfresh
  cases hk : r.Vars "key" with
  | none => simp only [tablesController, hk]; exact ⟨h400 _, trivial⟩
  | some keyParam =>
    by_cases hempty : keyParam = ""
    · simp only [tablesController, hk, hempty, if_true]; exact ⟨h400 _, trivial⟩
    · rcases hbad with h | h | ⟨hput, hdec⟩
      · rw [hk] at h; cases h
      · rw [hk] at h; exact absurd (Option.some.inj h) hempty
      · have hget : ¬ r.Method = MethodGet := by rw [hput]; decide
        cases hd : storage.Decode r.Body with
        | mk tables err =>
          cases err with
          | none => rw [hd] at hdec; exact absurd rfl hdec
          | some e =>
            simp only [tablesController, hk, hempty, if_false, hget, hput, if_true, hd]
            exact ⟨h400 _, rfl⟩

/-- C4, exercised on a PUT request whose body, an array that is never closed, does not
decode. -/
theorem tablesController_malformed_witness :
    freshConn.w.status = none ∧
    (jsonStorage.Decode "[1, 2").2 ≠ none ∧
    (tablesController jsonStorage freshConn
        (mkRequest "PUT" (some "k") "[1, 2" "pw" "" "10.0.0.1:4000")).w.status = some 400 ∧
    (tablesController jsonStorage freshConn
        (mkRequest "PUT" (some "k") "[1, 2" "pw" "" "10.0.0.1:4000")).trace = freshConn.trace :=
  ⟨rfl, by decide, tablesController_malformed jsonStorage freshConn
      (mkRequest "PUT" (some "k") "[1, 2" "pw" "" "10.0.0.1:4000") rfl
      (Or.inr (Or.inr (by decide)))⟩

/-- C4, as stated, fails: the body of this PUT request is an empty JSON object
followed by the word `garbage`, which is not valid JSON; the decoder reads the object
and does not look at what follows it, so the request is answered with status 200 after
`NewSegment` and `PutSegment` were called. -/
theorem tablesController_accepts_trailing_text :
    json.Valid "\x7b\x7d garbage" = false ∧
    validJSONFor objectUnmarshal "\x7b\x7d garbage" = false ∧
    (tablesController jsonStorage freshConn
        (mkRequest "PUT" (some "k") "\x7b\x7d garbage" "pw" "" "10.0.0.1:4000")).w.status
      = some 200 ∧
    (tablesController jsonStorage freshConn
        (mkRequest "PUT" (some "k") "\x7b\x7d garbage" "pw" "" "10.0.0.1:4000")).trace
      = [Event.NewSegment "k" 2 0, Event.PutSegment "k" 2] := by
  decide

/-- C5: with a storage core whose `DeleteSegment` (and `FetchSegment`) returns an
error, the DELETE request (and the GET request) for a non-empty key is answered with
status 200 and the success body: the error does not reach the caller. -/
theorem tablesController_error_swallowed :
    failingStorage.DeleteSegment "k" = some "not found" ∧
    (tablesController failingStorage freshConn
        (mkRequest "DELETE" (some "k") "" "pw" "" "10.0.0.1:4000")).w.status = some 200 ∧
    (tablesController failingStorage freshConn
        (mkRequest "DELETE" (some "k") "" "pw" "" "10.0.0.1:4000")).w.body
      = [{ Code := 200, Result := none, Message := "request processed successfully!" }] ∧
    (failingStorage.FetchSegment "k").2 = some "not found" ∧
    (tablesController failingStorage freshConn
        (mkRequest "GET" (some "k") "" "pw" "" "10.0.0.1:4000")).w.status = some 200 := by
  decide

/-- C6: with a storage core whose `PutSegment` returns an error, a PUT request with a
non-empty key and a body that decodes is answered with the client-error status 400 and
the message of the malformed-body case, not with a 5xx status. -/
theorem tablesController_put_failure_is_400 :
    (failingStorage.Decode "tables").2 = none ∧
    failingStorage.PutSegment "k" 6 = some "write failure" ∧
    (tablesController failingStorage freshConn
        (mkRequest "PUT" (some "k") "tables" "pw" "" "10.0.0.1:4000")).trace
      = [Event.NewSegment "k" 6 0, Event.PutSegment "k" 6] ∧
    (tablesController failingStorage freshConn
        (mkRequest "PUT" (some "k") "tables" "pw" "" "10.0.0.1:4000")).w.status = some 400 ∧
    (tablesController failingStorage freshConn
        (mkRequest "PUT" (some "k") "tables" "pw" "" "10.0.0.1:4000")).w.body
      = [{ Code := 400, Result := none, Message := "无效的请求体，JSON 格式错误" }] := by
  decide

/-- C9: a POST request with a non-empty key is answered with status 200 and the success
message although the trace stays empty: no core operation is called for it. -/
theorem tablesController_post_calls_nothing :
    (tablesController goodStorage freshConn
        (mkRequest "POST" (some "k") "tables" "pw" "" "10.0.0.1:4000")).trace = [] ∧
    (tablesController goodStorage freshConn
        (mkRequest "POST" (some "k") "tables" "pw" "" "10.0.0.1:4000")).w.status = some 200 ∧
    (tablesController goodStorage freshConn
        (mkRequest "POST" (some "k") "tables" "pw" "" "10.0.0.1:4000")).w.body
      = [{ Code := 200, Result := none, Message := "request processed successfully!" }] := by
  decide

/-- The three verbs that do reach the core, on the passing storage: GET calls
`FetchSegment(key)`, PUT calls `NewSegment(key, tables, 0)` and then
`PutSegment(key, segment)`, DELETE calls `DeleteSegment(key)`. -/
theorem tablesController_verbs_reach_core :
    (tablesController goodStorage freshConn
        (mkRequest "GET" (some "k") "" "pw" "" "10.0.0.1:4000")).trace
      = [Event.FetchSegment "k"] ∧
    (tablesController goodStorage freshConn
        (mkRequest "PUT" (some "k") "tables" "pw" "" "10.0.0.1:4000")).trace
      = [Event.NewSegment "k" 6 0, Event.PutSegment "k" 6] ∧
    (tablesController goodStorage freshConn
        (mkRequest "DELETE" (some "k") "" "pw" "" "10.0.0.1:4000")).trace
      = [Event.DeleteSegment "k"] := by
  decide

/-! ## The encoder -/

/-- The failure half of the encode contract: for an enabled encoder with an encryptor,
an error of the encryptor makes `ToWrite` return `ErrSourceDataEncodeFail`, with no
bytes handed on for writing and the buffer untouched. -/
theorem ToWrite_encode_failure (secret buf : Bytes) (v : Nat) (e : Encoder)
    (enc : Encryptor) (entity : Entity) (hen : e.enable = true)
    (henc : e.Encryptor = some enc)
    (herr : (enc { Secret := secret, Data := entity.Value }).2 ≠ none) :
    (e.ToWrite secret buf v entity).1 = Outcome.returned (some Err.ErrSourceDataEncodeFail) ∧
    (e.ToWrite secret buf v entity).2.written = [] ∧
    (e.ToWrite secret buf v entity).2.buf = buf := by
  cases hr : enc { Secret := secret, Data := entity.Value } with
  | mk sd err =>
    cases err with
    | none => rw [hr] at herr; exact absurd rfl herr
    | some x => simp [Encoder.ToWrite, hen, henc, hr]

/-- The success half of the encode contract as the code has it: for an enabled encoder
whose encryptor returns no error, `ToWrite` returns no error exactly when the buffer
`buf` has at least four bytes, and panics otherwise; no bytes are handed on for
writing in either case. -/
theorem ToWrite_encode_success (secret buf : Bytes) (v : Nat) (e : Encoder)
    (enc : Encryptor) (entity : Entity) (hen : e.enable = true)
    (henc : e.Encryptor = some enc)
    (hok : (enc { Secret := secret, Data := entity.Value }).2 = none) :
    (4 ≤ buf.length → (e.ToWrite secret buf v entity).1 = Outcome.returned none) ∧
    (buf.length < 4 → (e.ToWrite secret buf v entity).1 = Outcome.panicked) ∧
    (e.ToWrite secret buf v entity).2.written = [] := by
  cases hr : enc { Secret := secret, Data := entity.Value } with
  | mk sd err =>
    cases err with
    | some x => rw [hr] at hok; cases hok
    | none =>
      by_cases hb : buf.length < 4
      · refine ⟨fun h => absurd hb (Nat.not_lt.mpr h), fun _ => ?_, ?_⟩ <;>
          simp [Encoder.ToWrite, hen, henc, hr, binary.PutUint32, hb]
      · refine ⟨fun _ => ?_, fun h => absurd h hb, ?_⟩ <;>
          simp [Encoder.ToWrite, hen, henc, hr, binary.PutUint32, hb]

/-- C3: `ToWrite` on the encoder returned by `DefaultEncoder` returns no error, enters
no encryptor, hands on no bytes, and leaves the entity as it was, whatever the package
variables hold. -/
theorem DefaultEncoder_ToWrite (secret buf : Bytes) (v : Nat) (entity : Entity) :
    (DefaultEncoder.ToWrite secret buf v entity).1 = Outcome.returned none ∧
    (DefaultEncoder.ToWrite secret buf v entity).2.encodeCalls = [] ∧
    (DefaultEncoder.ToWrite secret buf v entity).2.written = [] ∧
    (DefaultEncoder.ToWrite secret buf v entity).2.entity = entity ∧
    (DefaultEncoder.ToWrite secret buf v entity).2.entity.Key = entity.Key ∧
    (DefaultEncoder.ToWrite secret buf v entity).2.entity.Value = entity.Value := by
  simp [Encoder.ToWrite, DefaultEncoder]

/-- C7, as stated, fails: two runs of `ToWrite` on the same enabled encoder and the
same entity that differ only in the package variable `secret` hand different key
material to the encryptor. -/
theorem ToWrite_secret_is_global :
    (((AESEncoder reverseEncryptor).ToWrite [1, 2] [] 0
        { Key := [5], Value := [9, 8] }).2.encodeCalls.map SourceData.Secret) ≠
    (((AESEncoder reverseEncryptor).ToWrite [3, 4] [] 0
        { Key := [5], Value := [9, 8] }).2.encodeCalls.map SourceData.Secret) := by
  decide

/-- C7, amended: for an enabled encoder with an encryptor, the one call of the
encryptor receives as key material the value of the package variable `secret` at the
time of the call, whatever the encoder and the entity are. -/
theorem ToWrite_secret_from_package (secret buf : Bytes) (v : Nat) (e : Encoder)
    (enc : Encryptor) (entity : Entity) (hen : e.enable = true)
    (henc : e.Encryptor = some enc) :
    (e.ToWrite secret buf v entity).2.encodeCalls.map SourceData.Secret = [secret] := by
  cases hr : enc { Secret := secret, Data := entity.Value } with
  | mk sd err =>
    cases err with
    | some x => simp [Encoder.ToWrite, hen, henc, hr]
    | none =>
      cases hp : binary.PutUint32 buf v <;> simp [Encoder.ToWrite, hen, henc, hr, hp]

/-- C7 amended, exercised. -/
theorem ToWrite_secret_from_package_witness :
    ((AESEncoder reverseEncryptor).ToWrite [3, 4] [] 0
        { Key := [5], Value := [9, 8] }).2.encodeCalls.map SourceData.Secret = [[3, 4]] :=
  ToWrite_secret_from_package [3, 4] [] 0 (AESEncoder reverseEncryptor) reverseEncryptor
    { Key := [5], Value := [9, 8] } rfl rfl

/-- C8, as stated, fails: two entities with the same value and different keys are
handed to the encryptor as the same payload, and that payload is not the serialization
of key and value. -/
theorem ToWrite_payload_ignores_key :
    ({ Key := [5], Value := [9, 8] } : Entity).Key ≠ ({ Key := [6], Value := [9, 8] } : Entity).Key ∧
    (((AESEncoder reverseEncryptor).ToWrite [1, 2] [] 0
        { Key := [5], Value := [9, 8] }).2.encodeCalls.map SourceData.Data) =
    (((AESEncoder reverseEncryptor).ToWrite [1, 2] [] 0
        { Key := [6], Value := [9, 8] }).2.encodeCalls.map SourceData.Data) ∧
    (((AESEncoder reverseEncryptor).ToWrite [1, 2] [] 0
        { Key := [5], Value := [9, 8] }).2.encodeCalls.map SourceData.Data)
      ≠ [specPayload { Key := [5], Value := [9, 8] }] := by
  decide

/-- C8, amended: for an enabled encoder with an encryptor, the payload handed to the
encryptor is the value of the entity alone, so two entities with the same value are
handed on as the same payload whatever their keys. -/
theorem ToWrite_payload_is_value (secret buf : Bytes) (v : Nat) (e : Encoder)
    (enc : Encryptor) (entity other : Entity) (hen : e.enable = true)
    (henc : e.Encryptor = some enc) :
    (e.ToWrite secret buf v entity).2.encodeCalls.map SourceData.Data = [entity.Value] ∧
    (other.Value = entity.Value →
      (e.ToWrite secret buf v other).2.encodeCalls.map SourceData.Data
        = (e.ToWrite secret buf v entity).2.encodeCalls.map SourceData.Data) := by
  have key : ∀ x : Entity,
      (e.ToWrite secret buf v x).2.encodeCalls.map SourceData.Data = [x.Value] := by
    intro x
    cases hr : enc { Secret := secret, Data := x.Value } with
    | mk sd err =>
      cases err with
      | some y => simp [Encoder.ToWrite, hen, henc, hr]
      | none =>
        cases hp : binary.PutUint32 buf v <;> simp [Encoder.ToWrite, hen, henc, hr, hp]
  refine ⟨key entity, fun hv => ?_⟩
  rw [key other, key entity, hv]

/-- C8 amended, exercised on two entities with different keys. -/
theorem ToWrite_payload_is_value_witness :
    ((AESEncoder reverseEncryptor).ToWrite [1, 2] [] 0
        { Key := [5], Value := [9, 8] }).2.encodeCalls.map SourceData.Data = [[9, 8]] ∧
    ((AESEncoder reverseEncryptor).ToWrite [1, 2] [] 0
        { Key := [6], Value := [9, 8] }).2.encodeCalls.map SourceData.Data =
    ((AESEncoder reverseEncryptor).ToWrite [1, 2] [] 0
        { Key := [5], Value := [9, 8] }).2.encodeCalls.map SourceData.Data :=
  ⟨(ToWrite_payload_is_value [1, 2] [] 0 (AESEncoder reverseEncryptor) reverseEncryptor
      { Key := [5], Value := [9, 8] } { Key := [6], Value := [9, 8] } rfl rfl).1,
   (ToWrite_payload_is_value [1, 2] [] 0 (AESEncoder reverseEncryptor) reverseEncryptor
      { Key := [5], Value := [9, 8] } { Key := [6], Value := [9, 8] } rfl rfl).2 rfl⟩

end Rosetta
